import Mathlib

/-!
# Verification of the pymtl connectivity graph and simulation kernel

Shallow embedding of `src/vgen/rtler_vbase.py` (ports, slices, nets,
`connect`) and `src/pymtl/simulate.py` (the event-driven simulation
scheduler), together with theorems settling the specification claims.

Python integers are arbitrary precision and the source never masks a
net's value to its width, so net values are modelled as `Nat` with no
modulus.  Python object identity for `ValueNode` instances is modelled
by an arena: `netVals` is the list of all allocated nodes' values and a
port's `_value` pointer is an index into that arena (`none` = Python
`None`).
-/

namespace PyMTL

/-! ## Part 1: the connectivity / value graph (`rtler_vbase.py`) -/

/-- An entry of a port's `connections` list: either a peer
`VerilogPort` (by arena index) or a synthesized `VerilogConstant`
(`VerilogPort.connect`, int branch). -/
inductive Endpoint where
  | portRef (i : Nat)
  | constRef (value width : Nat)
  deriving DecidableEq, Repr

/-- The mutable state of a collection of `VerilogPort` objects and the
`ValueNode` arena they point into.

* `netVals i` — `_value` field of the `i`-th allocated `ValueNode`;
* `netWidths i` — its `width`;
* `portNet p` — the `_value` pointer of port `p` (`none` = Python `None`);
* `portWidth p` — the port's `width`;
* `portConns p` — the port's `connections` list;
* `danglingWarnings` — number of times the `value` setter took the
  "writing to unconnected node" warning branch. -/
structure VState where
  netVals : List Nat
  netWidths : List Nat
  portNet : List (Option Nat)
  portWidth : List Nat
  portConns : List (List Endpoint)
  danglingWarnings : Nat
  deriving DecidableEq, Repr

/-- Well-formedness: every non-`none` `_value` pointer indexes an
allocated `ValueNode`, and the per-port lists are parallel. -/
def VState.wf (s : VState) : Prop :=
  s.portNet.length = s.portWidth.length ∧
  s.portNet.length = s.portConns.length ∧
  s.netVals.length = s.netWidths.length ∧
  ∀ o ∈ s.portNet, ∀ n ∈ o, n < s.netVals.length

instance (s : VState) : Decidable s.wf := by
  unfold VState.wf
  exact inferInstance

/-- `VerilogPort.value` getter: `if self._value: return self._value.value
else: return self._value` — `None` when the port has no node. -/
def portValue (s : VState) (p : Nat) : Option Nat :=
  match s.portNet.getD p none with
  | some n => some (s.netVals.getD n 0)
  | none => none

/-- `VerilogPort.value` setter: on an unconnected port, print a warning
and allocate `ValueNode(self.width, value)`; otherwise write through to
the node (`self._value.value = value`). -/
def writePortValue (s : VState) (p : Nat) (v : Nat) : VState :=
  match s.portNet.getD p none with
  | none =>
      { s with
        danglingWarnings := s.danglingWarnings + 1
        portNet := s.portNet.set p (some s.netVals.length)
        netVals := s.netVals ++ [v]
        netWidths := s.netWidths ++ [s.portWidth.getD p 0] }
  | some n => { s with netVals := s.netVals.set n v }

/-- `VerilogPort.connect`, `isinstance(target, int)` branch:
append a `VerilogConstant(target, self.width)` to `connections` and set
`self._value = ValueNode(self.width, target)`. -/
def connectConst (s : VState) (p : Nat) (v : Nat) : VState :=
  { s with
    portConns := s.portConns.set p
      (s.portConns.getD p [] ++ [.constRef v (s.portWidth.getD p 0)])
    portNet := s.portNet.set p (some s.netVals.length)
    netVals := s.netVals ++ [v]
    netWidths := s.netWidths ++ [s.portWidth.getD p 0] }

/-- `VerilogPort.connect`, port-to-port branch: `assert self.width ==
target.width` (modelled as `none` on failure); append each port to the
other's `connections`; then `if target._value: self._value =
target._value  else: self._value = ValueNode(self.width); target._value
= self._value`.  Note the source consults only `target._value`: a node
already held by `self` is silently overwritten in the else branch. -/
def connectPort (s : VState) (p q : Nat) : Option VState :=
  if s.portWidth.getD p 0 = s.portWidth.getD q 0 then
    let c1 := s.portConns.set p (s.portConns.getD p [] ++ [.portRef q])
    let c2 := c1.set q (c1.getD q [] ++ [.portRef p])
    let s1 := { s with portConns := c2 }
    some (match s1.portNet.getD q none with
      | some n => { s1 with portNet := s1.portNet.set p (some n) }
      | none =>
          { s1 with
            portNet := (s1.portNet.set p (some s1.netVals.length)).set q
              (some s1.netVals.length)
            netVals := s1.netVals ++ [0]
            netWidths := s1.netWidths ++ [s1.portWidth.getD p 0] })
  else none

/-- `VerilogSlice.value` getter for a slice of port `p` at bit `addr`:
`((self.parent_ptr.value) & (1 << self.addr)) >> self.addr`.  When the
parent port's value is `None` the Python expression raises a
`TypeError`; modelled as `none`. -/
def sliceValue (s : VState) (p : Nat) (addr : Nat) : Option Nat :=
  match portValue s p with
  | some pv => some ((pv &&& (1 <<< addr)) >>> addr)
  | none => none

/-- `VerilogSlice.value` setter: `self.parent_ptr.value |= (value <<
self.addr)` — a read-modify-write OR through the parent port, not a
masked replace.  `none` when the parent's value is `None` (Python
`TypeError` on `None | x`). -/
def sliceWrite (s : VState) (p : Nat) (addr : Nat) (v : Nat) :
    Option VState :=
  match portValue s p with
  | some pv => some (writePortValue s p (pv ||| (v <<< addr)))
  | none => none

/-- A fresh `VerilogPort(type, width)`: `_value = None`, empty
`connections`. -/
def freshPorts (widths : List Nat) : VState :=
  { netVals := []
    netWidths := []
    portNet := widths.map (fun _ => none)
    portWidth := widths
    portConns := widths.map (fun _ => [])
    danglingWarnings := 0 }


lemma getD_none_eq_some {l : List (Option Nat)} {i n : Nat}
    (h : l.getD i none = some n) : l[i]? = some (some n) := by
  rw [List.getD_eq_getElem?_getD] at h
  cases ho : l[i]? with
  | none => rw [ho] at h; simp at h
  | some o => rw [ho] at h; simp at h; rw [h]

lemma getD_none_eq_none {l : List (Option Nat)} {i : Nat}
    (h : l.getD i none = none) : l[i]? = none ∨ l[i]? = some none := by
  rw [List.getD_eq_getElem?_getD] at h
  cases ho : l[i]? with
  | none => exact Or.inl rfl
  | some o => rw [ho] at h; simp at h; rw [h]; exact Or.inr rfl

lemma mem_of_getD_some {l : List (Option Nat)} {i n : Nat}
    (h : l.getD i none = some n) : some n ∈ l :=
  List.getElem?_mem (getD_none_eq_some h)

/-- C1 (amended): `connect(a, b)` on two distinct ports of equal width makes
both ports reference one shared `ValueNode`: if the *target* `b` already has a
node, `a` adopts it; otherwise a fresh node is allocated and assigned to both
(the source never consults `a`'s own `_value`, so any node `a` held is
discarded).  Immediately after the call, writing either of the two ports and
reading the other yields the written value.  The original claim's
"either endpoint" adoption rule and order-independent one-net-per-component
invariant are refuted by `C1_counterexample`. -/
theorem C1_amended (s : VState) (p q v : Nat) (hwf : s.wf) (hpq : p ≠ q)
    (hp : p < s.portNet.length) (hq : q < s.portNet.length)
    (hw : s.portWidth.getD p 0 = s.portWidth.getD q 0) :
    ∃ s' n, connectPort s p q = some s' ∧
      s'.portNet.getD p none = some n ∧ s'.portNet.getD q none = some n ∧
      (∀ m, s.portNet.getD q none = some m → n = m) ∧
      portValue (writePortValue s' p v) q = some v ∧
      portValue (writePortValue s' q v) p = some v := by
  unfold connectPort
  rw [if_pos hw]
  cases hqn : s.portNet.getD q none with
  | some m =>
    have hq2 : s.portNet[q]? = some (some m) := getD_none_eq_some hqn
    have hm : m < s.netVals.length := hwf.2.2.2 _ (mem_of_getD_some hqn) m rfl
    simp only [List.getD_eq_getElem?_getD, hq2, Option.getD_some]
    refine ⟨_, m, rfl, ?_, ?_, ?_, ?_, ?_⟩
    · simp [List.getElem?_set_self hp]
    · simp [List.getElem?_set_ne hpq, hq2]
    · intro m' hm'; exact Option.some_inj.mp hm'
    · unfold writePortValue portValue
      simp only [List.getD_eq_getElem?_getD, List.getElem?_set_self hp,
        List.getElem?_set_ne hpq, hq2, Option.getD_some,
        List.getElem?_set_self hm]
    · unfold writePortValue portValue
      simp only [List.getD_eq_getElem?_getD, List.getElem?_set_ne hpq, hq2,
        Option.getD_some, List.getElem?_set_self hp,
        List.getElem?_set_self hm]
  | none =>
    have hq2 : s.portNet[q]? = some none := by
      rcases getD_none_eq_none hqn with h | h
      · rw [List.getElem?_eq_none_iff] at h; omega
      · exact h
    have hL : s.netVals.length < (s.netVals ++ [0]).length := by simp
    have hp' : p < (s.portNet.set p (some s.netVals.length)).length := by
      simpa using hp
    have hq' : q < (s.portNet.set p (some s.netVals.length)).length := by
      simpa using hq
    simp only [List.getD_eq_getElem?_getD, hq2, Option.getD_some]
    refine ⟨_, s.netVals.length, rfl, ?_, ?_, ?_, ?_, ?_⟩
    · simp [List.getElem?_set_ne (Ne.symm hpq), List.getElem?_set_self hp]
    · simp [List.getElem?_set_self hq']
    · intro m' hm'; exact Option.noConfusion hm'
    · unfold writePortValue portValue
      simp only [List.getD_eq_getElem?_getD,
        List.getElem?_set_ne (Ne.symm hpq), List.getElem?_set_self hp,
        Option.getD_some, List.getElem?_set_self hq',
        List.getElem?_set_self hL]
    · unfold writePortValue portValue
      simp only [List.getD_eq_getElem?_getD, List.getElem?_set_self hq',
        Option.getD_some, List.getElem?_set_ne (Ne.symm hpq),
        List.getElem?_set_self hp, List.getElem?_set_self hL]


/-- C1 (counterexample): connecting port 0 to port 1 and then port 1 to port 2
(all of width 1) leaves the transitively connected component {0, 1, 2} with
TWO distinct `ValueNode`s — `connect` consults only the target's `_value`, so
port 1's second connection allocates a fresh node and strands port 0 on the
old one.  Writing 5 to endpoint 0 and reading endpoint 2 yields 0, not 5,
refuting the claimed one-net-per-component invariant and the claimed
write-any/read-any property. -/
theorem C1_counterexample :
    (connectPort (freshPorts [1, 1, 1]) 0 1).isSome = true ∧
    (let s1 := (connectPort (freshPorts [1, 1, 1]) 0 1).getD
        (freshPorts [1, 1, 1])
     (connectPort s1 1 2).isSome = true ∧
     (let s2 := (connectPort s1 1 2).getD s1
      s2.portNet.getD 0 none ≠ s2.portNet.getD 2 none ∧
      portValue (writePortValue s2 0 5) 2 = some 0)) := by decide

/-- C1 (witness): `C1_amended` instantiated at two fresh width-1 ports. -/
theorem C1_amended_witness :
    ∃ s' n, connectPort (freshPorts [1, 1]) 0 1 = some s' ∧
      s'.portNet.getD 0 none = some n ∧ s'.portNet.getD 1 none = some n ∧
      (∀ m, (freshPorts [1, 1]).portNet.getD 1 none = some m → n = m) ∧
      portValue (writePortValue s' 0 5) 1 = some 5 ∧
      portValue (writePortValue s' 1 5) 0 = some 5 :=
  C1_amended (freshPorts [1, 1]) 0 1 5 (by decide) (by decide) (by decide)
    (by decide) (by decide)

/-- C4 (code bug, evaluated at the failing input): a width-2 port backed by a
net holding 3; writing 0 to bit slice [0] must — per the claim — clear bit 0
(net becomes 2, read-back 0).  The source's slice setter instead ORs the
shifted value into the net (`self.parent_ptr.value |= value << self.addr`),
so the net stays 3 and the read-back of bit 0 is 1. -/
theorem C4_slice_or_write :
    (sliceWrite ⟨[3], [2], [some 0], [2], [[]], 0⟩ 0 0 0).isSome = true ∧
    ((sliceWrite ⟨[3], [2], [some 0], [2], [[]], 0⟩ 0 0 0).getD
        ⟨[3], [2], [some 0], [2], [[]], 0⟩).netVals = [3] ∧
    sliceValue ((sliceWrite ⟨[3], [2], [some 0], [2], [[]], 0⟩ 0 0 0).getD
        ⟨[3], [2], [some 0], [2], [[]], 0⟩) 0 0 = some 1 := by decide

/-- C7: connecting a port to a raw integer constant `v` appends a synthesized
`VerilogConstant` endpoint of the port's width to its `connections`, installs
a fresh `ValueNode` initialized to `v`, and a subsequent read of the port
yields `v`.  No width-equality check occurs on this path (the `0 < width` and
`v < 2 ^ width` bounds of the claim are carried as hypotheses but are not
needed by the code). -/
theorem C7_connect_const_value (s : VState) (p v : Nat) (hwf : s.wf)
    (hp : p < s.portNet.length) (hwpos : 0 < s.portWidth.getD p 0)
    (hv : v < 2 ^ s.portWidth.getD p 0) :
    portValue (connectConst s p v) p = some v ∧
    (connectConst s p v).portConns.getD p [] =
      s.portConns.getD p [] ++ [Endpoint.constRef v (s.portWidth.getD p 0)] ∧
    (connectConst s p v).portNet.getD p none = some s.netVals.length ∧
    (connectConst s p v).netVals.getD s.netVals.length 0 = v := by
  have hpc : p < s.portConns.length := hwf.2.1 ▸ hp
  refine ⟨?_, ?_, ?_, ?_⟩
  · unfold portValue connectConst
    simp only [List.getD_eq_getElem?_getD, List.getElem?_set_self hp,
      Option.getD_some]
    simp
  · unfold connectConst
    simp only [List.getD_eq_getElem?_getD, List.getElem?_set_self hpc,
      Option.getD_some]
  · unfold connectConst
    simp only [List.getD_eq_getElem?_getD, List.getElem?_set_self hp,
      Option.getD_some]
  · unfold connectConst
    simp [List.getD_eq_getElem?_getD]

/-- C7 (witness): a fresh width-4 port connected to the constant 9. -/
theorem C7_connect_const_value_witness :
    portValue (connectConst (freshPorts [4]) 0 9) 0 = some 9 ∧
    (connectConst (freshPorts [4]) 0 9).portConns.getD 0 [] =
      (freshPorts [4]).portConns.getD 0 [] ++ [Endpoint.constRef 9 4] ∧
    (connectConst (freshPorts [4]) 0 9).portNet.getD 0 none = some 0 ∧
    (connectConst (freshPorts [4]) 0 9).netVals.getD 0 0 = 9 :=
  C7_connect_const_value (freshPorts [4]) 0 9 (by decide) (by decide)
    (by decide) (by decide)

/-- C8: writing to a port with no backing node takes the warning branch of the
`value` setter (the dangling-warning count increments by one), silently
allocates a fresh `ValueNode(self.width, value)`, and a subsequent read of
the port returns the written value — no error is raised (the setter is a
total function). -/
theorem C8_dangling_write_warns (s : VState) (p v : Nat)
    (hp : p < s.portNet.length) (hnone : s.portNet.getD p none = none) :
    (writePortValue s p v).danglingWarnings = s.danglingWarnings + 1 ∧
    (writePortValue s p v).netVals = s.netVals ++ [v] ∧
    portValue (writePortValue s p v) p = some v := by
  unfold writePortValue
  simp only [hnone]
  refine ⟨trivial, trivial, ?_⟩
  unfold portValue
  simp only [List.getD_eq_getElem?_getD, List.getElem?_set_self hp,
    Option.getD_some]
  simp

/-- C8 (witness): a fresh, never-connected width-4 port written with 6. -/
theorem C8_dangling_write_warns_witness :
    (writePortValue (freshPorts [4]) 0 6).danglingWarnings =
      (freshPorts [4]).danglingWarnings + 1 ∧
    (writePortValue (freshPorts [4]) 0 6).netVals =
      (freshPorts [4]).netVals ++ [6] ∧
    portValue (writePortValue (freshPorts [4]) 0 6) 0 = some 6 :=
  C8_dangling_write_warns (freshPorts [4]) 0 6 (by decide) (by decide)

/-- C10: reading a port whose `_value` pointer is `None` (never connected,
never written) returns `None` — not an error and not a numeric default; after
a first write or a constant connection the read returns the integer. -/
theorem C10_unconnected_reads_none (s : VState) (p v : Nat)
    (hp : p < s.portNet.length) (hnone : s.portNet.getD p none = none) :
    portValue s p = none ∧
    portValue (writePortValue s p v) p = some v ∧
    portValue (connectConst s p v) p = some v := by
  refine ⟨?_, ?_, ?_⟩
  · unfold portValue
    rw [hnone]
  · unfold writePortValue
    simp only [hnone]
    unfold portValue
    simp only [List.getD_eq_getElem?_getD, List.getElem?_set_self hp,
      Option.getD_some]
    simp
  · unfold portValue connectConst
    simp only [List.getD_eq_getElem?_getD, List.getElem?_set_self hp,
      Option.getD_some]
    simp

/-- C10 (witness): a fresh width-4 port reads `none`; after a write of 6 or a
constant connection of 6 it reads `some 6`. -/
theorem C10_unconnected_reads_none_witness :
    portValue (freshPorts [4]) 0 = none ∧
    portValue (writePortValue (freshPorts [4]) 0 6) 0 = some 6 ∧
    portValue (connectConst (freshPorts [4]) 0 6) 0 = some 6 :=
  C10_unconnected_reads_none (freshPorts [4]) 0 6 (by decide) (by decide)

/-! ## Part 2: the simulation scheduler (`simulate.py`)

`SimulationTool` stores Python function objects in `vnode_callbacks`,
`posedge_clk_fns` and the `event_queue`.  Functions are modelled by
identifiers (`Nat`); their behaviour is supplied by an environment
(`SimCfg`): a combinational function maps the current net values to the
ordered list of net writes it performs, and an edge-triggered function
maps the current net values to the register stagings it produces.

The Python `deque` is modelled as a `List` whose head is the LEFT end:
`appendleft` is `cons`, and `pop()` (which removes from the RIGHT end)
is `getLast?` / `dropLast`. -/

/-- The static configuration of a constructed simulator.

* `sens n` — `vnode_callbacks[n]`: functions registered against net `n`,
  in registration order;
* `cprog f` — behaviour of combinational function `f`: the list of
  `(net, value)` writes it performs, in order, as a function of the
  current net values;
* `posedgeFns` — `posedge_clk_fns`, in registration order;
* `pprog f` — behaviour of edge-triggered function `f`.  Modelled from
  the spec: the `Register` class (`model.py`) is not under `src/`; per
  §4.5 an edge-triggered function stages each register's next value, so
  `pprog f` returns the `(output net, staged value)` entries appended to
  `rnode_callbacks`, as a function of the current net values;
* `clkNet` — the net behind `self.model.clk`;
* `resetNet` — the net behind `self.model.reset`. -/
structure SimCfg where
  sens : Nat → List Nat
  cprog : Nat → List Nat → List (Nat × Nat)
  posedgeFns : List Nat
  pprog : Nat → List Nat → List (Nat × Nat)
  clkNet : Nat
  resetNet : Nat

/-- The mutable state of `SimulationTool` plus the net values.

* `nets` — the `ValueNode` values, by net id;
* `eventQueue` — the `deque`; head = left end;
* `rnodeCallbacks` — registers staged this cycle, in staging order
  (appended at the right, popped from the right);
* `numCycles` — the cycle counter. -/
structure SimState where
  nets : List Nat
  eventQueue : List Nat
  rnodeCallbacks : List (Nat × Nat)
  numCycles : Nat
  deriving DecidableEq, Repr

/-- `SimulationTool.add_event(value_node)`: for every function registered
against the written net, `if func not in self.event_queue:
self.event_queue.appendleft(func)`. -/
def addEvent (cfg : SimCfg) (q : List Nat) (n : Nat) : List Nat :=
  (cfg.sens n).foldl (fun q f => if f ∈ q then q else f :: q) q

/-- `ValueNode.value` setter under a simulator: `self.sim.add_event(self)`
then `self._value = value`. -/
def writeNet (cfg : SimCfg) (s : SimState) (n v : Nat) : SimState :=
  { s with eventQueue := addEvent cfg s.eventQueue n, nets := s.nets.set n v }

/-- Execute one combinational function: perform each of its writes in
order, each through the `ValueNode` setter. -/
def runWrites (cfg : SimCfg) (s : SimState) (ws : List (Nat × Nat)) :
    SimState :=
  ws.foldl (fun s w => writeNet cfg s w.1 w.2) s

/-- `SimulationTool.eval_combinational`: `while self.event_queue: func =
self.event_queue.pop(); func()` — `deque.pop()` removes from the RIGHT
end.  The loop need not terminate (combinational feedback), so it is
modelled with explicit fuel; the returned list is the sequence of
function invocations, in execution order. -/
def evalComb (cfg : SimCfg) : Nat → SimState → SimState × List Nat
  | 0, s => (s, [])
  | fuel + 1, s =>
    match s.eventQueue.getLast? with
    | none => (s, [])
    | some f =>
      let s1 := { s with eventQueue := s.eventQueue.dropLast }
      let s2 := runWrites cfg s1 (cfg.cprog f s1.nets)
      let r := evalComb cfg fuel s2
      (r.1, f :: r.2)

/-- The edge phase: `for func in self.posedge_clk_fns: func()` — each
edge-triggered function appends its stagings to `rnode_callbacks`
(staging modelled from the spec, see `SimCfg.pprog`). -/
def runPosedge (cfg : SimCfg) (s : SimState) : SimState :=
  cfg.posedgeFns.foldl
    (fun s f => { s with rnodeCallbacks := s.rnodeCallbacks ++ cfg.pprog f s.nets }) s

/-- The commit loop: `while self.rnode_callbacks: reg =
self.rnode_callbacks.pop(); reg.clock()` — `pop()` takes the RIGHT end,
so the stack is processed in reverse staging order; `reg.clock()`
applies the staged value to the register's output net through the
`ValueNode` setter (modelled from the spec, §4.5/glossary "Commit").
`reg.clock()` never touches `rnode_callbacks`, so the loop equals a
traversal of the reversed stack; the caller passes the reversed stack
and this processes it front to back.  Also returns the commits in the
order they were applied. -/
def commitRegs (cfg : SimCfg) :
    List (Nat × Nat) → SimState → SimState × List (Nat × Nat)
  | [], s => (s, [])
  | e :: rest, s =>
    let r := commitRegs cfg rest (writeNet cfg s e.1 e.2)
    (r.1, e :: r.2)

/-- The observable events of one `cycle()` call, in program order:
the invocations of the first settle, the register commits, and the
invocations of the second settle (the clock writes and the edge-function
invocations sit between `settle1` and `commits` in source order). -/
structure CycleTrace where
  settle1 : List Nat
  commits : List (Nat × Nat)
  settle2 : List Nat
  deriving DecidableEq, Repr

/-- `SimulationTool.cycle()`: `self.eval_combinational()`;
`self.model.clk.value = 0`; `self.model.clk.value = 1`; `for func in
self.posedge_clk_fns: func()`; `while self.rnode_callbacks:
self.rnode_callbacks.pop().clock()`; `self.eval_combinational()`;
`self.num_cycles += 1`.  (VCD output elided: it only prints.) -/
def cycle (cfg : SimCfg) (fuel : Nat) (s : SimState) :
    SimState × CycleTrace :=
  let r1 := evalComb cfg fuel s
  let s2 := writeNet cfg r1.1 cfg.clkNet 0
  let s3 := writeNet cfg s2 cfg.clkNet 1
  let s4 := runPosedge cfg s3
  let rc := commitRegs cfg s4.rnodeCallbacks.reverse
    { s4 with rnodeCallbacks := [] }
  let r2 := evalComb cfg fuel rc.1
  ({ r2.1 with numCycles := r2.1.numCycles + 1 },
   { settle1 := r1.2, commits := rc.2, settle2 := r2.2 })

/-- `SimulationTool.reset()`: `self.model.reset.value = 1`;
`self.cycle()`; `self.cycle()`; `self.model.reset.value = 0`. -/
def reset (cfg : SimCfg) (fuel : Nat) (s : SimState) : SimState :=
  let s1 := writeNet cfg s cfg.resetNet 1
  let s2 := (cycle cfg fuel s1).1
  let s3 := (cycle cfg fuel s2).1
  writeNet cfg s3 cfg.resetNet 0


lemma writeNet_numCycles (cfg : SimCfg) (s : SimState) (n v : Nat) :
    (writeNet cfg s n v).numCycles = s.numCycles := rfl

lemma writeNet_rnode (cfg : SimCfg) (s : SimState) (n v : Nat) :
    (writeNet cfg s n v).rnodeCallbacks = s.rnodeCallbacks := rfl

lemma writeNet_netsLength (cfg : SimCfg) (s : SimState) (n v : Nat) :
    (writeNet cfg s n v).nets.length = s.nets.length := by
  simp [writeNet]

lemma writeNet_getD_ne (cfg : SimCfg) (s : SimState) (n v r : Nat)
    (h : n ≠ r) :
    (writeNet cfg s n v).nets.getD r 0 = s.nets.getD r 0 := by
  simp [writeNet, List.getD_eq_getElem?_getD, List.getElem?_set_ne h]

lemma runWrites_numCycles (cfg : SimCfg) (ws : List (Nat × Nat)) :
    ∀ s : SimState, (runWrites cfg s ws).numCycles = s.numCycles := by
  induction ws with
  | nil => intro s; rfl
  | cons w ws ih => intro s; exact ih (writeNet cfg s w.1 w.2)

lemma runWrites_rnode (cfg : SimCfg) (ws : List (Nat × Nat)) :
    ∀ s : SimState, (runWrites cfg s ws).rnodeCallbacks = s.rnodeCallbacks := by
  induction ws with
  | nil => intro s; rfl
  | cons w ws ih => intro s; exact ih (writeNet cfg s w.1 w.2)

lemma runWrites_netsLength (cfg : SimCfg) (ws : List (Nat × Nat)) :
    ∀ s : SimState, (runWrites cfg s ws).nets.length = s.nets.length := by
  induction ws with
  | nil => intro s; rfl
  | cons w ws ih =>
    intro s
    rw [runWrites, List.foldl_cons, ← runWrites, ih, writeNet_netsLength]

lemma runWrites_getD (cfg : SimCfg) (ws : List (Nat × Nat)) (r : Nat)
    (hws : ∀ w ∈ ws, w.1 ≠ r) :
    ∀ s : SimState, (runWrites cfg s ws).nets.getD r 0 = s.nets.getD r 0 := by
  induction ws with
  | nil => intro s; rfl
  | cons w ws ih =>
    intro s
    rw [runWrites, List.foldl_cons, ← runWrites]
    rw [ih (fun w hw => hws w (List.mem_cons_of_mem _ hw))]
    exact writeNet_getD_ne cfg s w.1 w.2 r (hws w (List.mem_cons_self _ _))

lemma evalComb_numCycles (cfg : SimCfg) (fuel : Nat) :
    ∀ s : SimState, (evalComb cfg fuel s).1.numCycles = s.numCycles := by
  induction fuel with
  | zero => intro s; rfl
  | succ fuel ih =>
    intro s
    rw [evalComb]
    cases s.eventQueue.getLast? with
    | none => rfl
    | some f =>
      simp only []
      rw [ih, runWrites_numCycles]

lemma evalComb_rnode (cfg : SimCfg) (fuel : Nat) :
    ∀ s : SimState,
      (evalComb cfg fuel s).1.rnodeCallbacks = s.rnodeCallbacks := by
  induction fuel with
  | zero => intro s; rfl
  | succ fuel ih =>
    intro s
    rw [evalComb]
    cases s.eventQueue.getLast? with
    | none => rfl
    | some f =>
      simp only []
      rw [ih, runWrites_rnode]

lemma evalComb_netsLength (cfg : SimCfg) (fuel : Nat) :
    ∀ s : SimState, (evalComb cfg fuel s).1.nets.length = s.nets.length := by
  induction fuel with
  | zero => intro s; rfl
  | succ fuel ih =>
    intro s
    rw [evalComb]
    cases s.eventQueue.getLast? with
    | none => rfl
    | some f =>
      simp only []
      rw [ih, runWrites_netsLength]

lemma evalComb_getD (cfg : SimCfg) (fuel : Nat) (r : Nat)
    (hcp : ∀ g ns w, w ∈ cfg.cprog g ns → w.1 ≠ r) :
    ∀ s : SimState,
      (evalComb cfg fuel s).1.nets.getD r 0 = s.nets.getD r 0 := by
  induction fuel with
  | zero => intro s; rfl
  | succ fuel ih =>
    intro s
    rw [evalComb]
    cases s.eventQueue.getLast? with
    | none => rfl
    | some f =>
      simp only []
      rw [ih, runWrites_getD cfg _ r (fun w hw => hcp f _ w hw)]


lemma runPosedge_nets (cfg : SimCfg) :
    ∀ s : SimState, (runPosedge cfg s).nets = s.nets := by
  unfold runPosedge
  induction cfg.posedgeFns with
  | nil => intro s; rfl
  | cons f fs ih => intro s; rw [List.foldl_cons]; exact ih _

lemma runPosedge_numCycles (cfg : SimCfg) :
    ∀ s : SimState, (runPosedge cfg s).numCycles = s.numCycles := by
  unfold runPosedge
  induction cfg.posedgeFns with
  | nil => intro s; rfl
  | cons f fs ih => intro s; rw [List.foldl_cons]; exact ih _

lemma runPosedge_queue (cfg : SimCfg) :
    ∀ s : SimState, (runPosedge cfg s).eventQueue = s.eventQueue := by
  unfold runPosedge
  induction cfg.posedgeFns with
  | nil => intro s; rfl
  | cons f fs ih => intro s; rw [List.foldl_cons]; exact ih _

lemma runPosedge_rnode_src (cfg : SimCfg) :
    ∀ s : SimState, ∀ e ∈ (runPosedge cfg s).rnodeCallbacks,
      e ∈ s.rnodeCallbacks ∨ ∃ g ns, e ∈ cfg.pprog g ns := by
  unfold runPosedge
  induction cfg.posedgeFns with
  | nil => intro s e he; exact Or.inl he
  | cons f fs ih =>
    intro s e he
    rw [List.foldl_cons] at he
    rcases ih _ e he with h | h
    · rcases List.mem_append.mp h with h' | h'
      · exact Or.inl h'
      · exact Or.inr ⟨f, s.nets, h'⟩
    · exact Or.inr h

lemma commitRegs_trace (cfg : SimCfg) (l : List (Nat × Nat)) :
    ∀ s : SimState, (commitRegs cfg l s).2 = l := by
  induction l with
  | nil => intro s; rfl
  | cons e rest ih => intro s; rw [commitRegs]; simp [ih]

lemma commitRegs_rnode (cfg : SimCfg) (l : List (Nat × Nat)) :
    ∀ s : SimState,
      (commitRegs cfg l s).1.rnodeCallbacks = s.rnodeCallbacks := by
  induction l with
  | nil => intro s; rfl
  | cons e rest ih =>
    intro s
    rw [commitRegs]
    simp only []
    rw [ih, writeNet_rnode]

lemma commitRegs_numCycles (cfg : SimCfg) (l : List (Nat × Nat)) :
    ∀ s : SimState, (commitRegs cfg l s).1.numCycles = s.numCycles := by
  induction l with
  | nil => intro s; rfl
  | cons e rest ih =>
    intro s
    rw [commitRegs]
    simp only []
    rw [ih, writeNet_numCycles]

lemma commitRegs_netsLength (cfg : SimCfg) (l : List (Nat × Nat)) :
    ∀ s : SimState, (commitRegs cfg l s).1.nets.length = s.nets.length := by
  induction l with
  | nil => intro s; rfl
  | cons e rest ih =>
    intro s
    rw [commitRegs]
    simp only []
    rw [ih, writeNet_netsLength]

lemma commitRegs_getD (cfg : SimCfg) (l : List (Nat × Nat)) (r : Nat)
    (hl : ∀ e ∈ l, e.1 ≠ r) :
    ∀ s : SimState,
      (commitRegs cfg l s).1.nets.getD r 0 = s.nets.getD r 0 := by
  induction l with
  | nil => intro s; rfl
  | cons e rest ih =>
    intro s
    rw [commitRegs]
    simp only []
    rw [ih (fun e he => hl e (List.mem_cons_of_mem _ he))]
    exact writeNet_getD_ne cfg s e.1 e.2 r (hl e (List.mem_cons_self _ _))


/-- The state in which the commit loop of `cycle()` starts: first settle,
clock driven to 0 then 1, all edge-triggered functions run. -/
def edgePhase (cfg : SimCfg) (fuel : Nat) (s : SimState) : SimState :=
  runPosedge cfg
    (writeNet cfg (writeNet cfg (evalComb cfg fuel s).1 cfg.clkNet 0)
      cfg.clkNet 1)

lemma getD_set_self {l : List Nat} {i v : Nat} (h : i < l.length) :
    (l.set i v).getD i 0 = v := by
  simp [List.getD_eq_getElem?_getD, List.getElem?_set_self h]

lemma cycle_numCycles (cfg : SimCfg) (fuel : Nat) (s : SimState) :
    (cycle cfg fuel s).1.numCycles = s.numCycles + 1 := by
  unfold cycle
  simp only [evalComb_numCycles, commitRegs_numCycles, runPosedge_numCycles,
    writeNet_numCycles]

lemma cycle_rnode_nil (cfg : SimCfg) (fuel : Nat) (s : SimState) :
    (cycle cfg fuel s).1.rnodeCallbacks = [] := by
  unfold cycle
  simp only [evalComb_rnode, commitRegs_rnode]

lemma cycle_netsLength (cfg : SimCfg) (fuel : Nat) (s : SimState) :
    (cycle cfg fuel s).1.nets.length = s.nets.length := by
  unfold cycle
  simp only [evalComb_netsLength, commitRegs_netsLength]
  rw [show (runPosedge cfg (writeNet cfg (writeNet cfg (evalComb cfg fuel s).1
      cfg.clkNet 0) cfg.clkNet 1)).nets =
    (writeNet cfg (writeNet cfg (evalComb cfg fuel s).1 cfg.clkNet 0)
      cfg.clkNet 1).nets from runPosedge_nets cfg _]
  rw [writeNet_netsLength, writeNet_netsLength, evalComb_netsLength]


lemma edgePhase_clk_one (cfg : SimCfg) (fuel : Nat) (s : SimState)
    (hclk : cfg.clkNet < s.nets.length) :
    (edgePhase cfg fuel s).nets.getD cfg.clkNet 0 = 1 := by
  unfold edgePhase
  rw [runPosedge_nets]
  unfold writeNet
  simp only []
  apply getD_set_self
  rw [List.length_set, evalComb_netsLength]
  exact hclk

lemma edgePhase_rnode_src (cfg : SimCfg) (fuel : Nat) (s : SimState)
    (hrc : s.rnodeCallbacks = []) :
    ∀ e ∈ (edgePhase cfg fuel s).rnodeCallbacks,
      ∃ g ns, e ∈ cfg.pprog g ns := by
  intro e he
  rcases runPosedge_rnode_src cfg _ e he with h | h
  · rw [writeNet_rnode, writeNet_rnode, evalComb_rnode, hrc] at h
    exact absurd h (List.not_mem_nil e)
  · exact h

lemma edgePhase_getD_preserved (cfg : SimCfg) (fuel : Nat) (s : SimState)
    (r : Nat)
    (hcp : ∀ g ns w, w ∈ cfg.cprog g ns → w.1 ≠ r)
    (hclk : cfg.clkNet ≠ r) :
    (edgePhase cfg fuel s).nets.getD r 0 = s.nets.getD r 0 := by
  unfold edgePhase
  rw [runPosedge_nets, writeNet_getD_ne cfg _ cfg.clkNet 1 r hclk,
    writeNet_getD_ne cfg _ cfg.clkNet 0 r hclk,
    evalComb_getD cfg fuel r hcp]

lemma cycle_getD_preserved (cfg : SimCfg) (fuel : Nat) (s : SimState)
    (r : Nat)
    (hcp : ∀ g ns w, w ∈ cfg.cprog g ns → w.1 ≠ r)
    (hpp : ∀ g ns w, w ∈ cfg.pprog g ns → w.1 ≠ r)
    (hclk : cfg.clkNet ≠ r)
    (hrc : s.rnodeCallbacks = []) :
    (cycle cfg fuel s).1.nets.getD r 0 = s.nets.getD r 0 := by
  have hstack : ∀ e ∈ (edgePhase cfg fuel s).rnodeCallbacks.reverse,
      e.1 ≠ r := by
    intro e he
    obtain ⟨g, ns, hg⟩ :=
      edgePhase_rnode_src cfg fuel s hrc e (List.mem_reverse.mp he)
    exact hpp g ns e hg
  calc (cycle cfg fuel s).1.nets.getD r 0
      = (commitRegs cfg (edgePhase cfg fuel s).rnodeCallbacks.reverse
          { edgePhase cfg fuel s with
            rnodeCallbacks := [] }).1.nets.getD r 0 :=
        evalComb_getD cfg fuel r hcp _
    _ = ({ edgePhase cfg fuel s with
            rnodeCallbacks := [] } : SimState).nets.getD r 0 :=
        commitRegs_getD cfg _ r hstack _
    _ = (edgePhase cfg fuel s).nets.getD r 0 := rfl
    _ = s.nets.getD r 0 := edgePhase_getD_preserved cfg fuel s r hcp hclk


lemma schedFold_exists (fs : List Nat) :
    ∀ q : List Nat,
      ∃ new, fs.foldl (fun q f => if f ∈ q then q else f :: q) q = new ++ q ∧
        ∀ f ∈ new, f ∈ fs ∧ f ∉ q := by
  induction fs with
  | nil => intro q; exact ⟨[], rfl, by simp⟩
  | cons a fs ih =>
    intro q
    rw [List.foldl_cons]
    by_cases ha : a ∈ q
    · rw [if_pos ha]
      obtain ⟨new, h1, h2⟩ := ih q
      exact ⟨new, h1, fun f hf =>
        ⟨List.mem_cons_of_mem a (h2 f hf).1, (h2 f hf).2⟩⟩
    · rw [if_neg ha]
      obtain ⟨new, h1, h2⟩ := ih (a :: q)
      refine ⟨new ++ [a], ?_, ?_⟩
      · rw [h1, List.append_assoc]; rfl
      · intro f hf
        rcases List.mem_append.mp hf with hf' | hf'
        · obtain ⟨hfs, hnq⟩ := h2 f hf'
          exact ⟨List.mem_cons_of_mem a hfs,
            fun hq => hnq (List.mem_cons_of_mem a hq)⟩
        · rw [List.mem_singleton.mp hf']
          exact ⟨List.mem_cons_self a fs, ha⟩

lemma schedFold_count_mem (fs : List Nat) (f : Nat) :
    ∀ q : List Nat, f ∈ q →
      (fs.foldl (fun q f => if f ∈ q then q else f :: q) q).count f =
        q.count f := by
  induction fs with
  | nil => intro q _; rfl
  | cons a fs ih =>
    intro q hq
    rw [List.foldl_cons]
    by_cases ha : a ∈ q
    · rw [if_pos ha]; exact ih q hq
    · rw [if_neg ha]
      have hne : a ≠ f := fun h => ha (h ▸ hq)
      rw [ih (a :: q) (List.mem_cons_of_mem a hq), List.count_cons]
      simp [hne]

lemma schedFold_count_new (fs : List Nat) (f : Nat) :
    ∀ q : List Nat, f ∉ q → f ∈ fs →
      (fs.foldl (fun q f => if f ∈ q then q else f :: q) q).count f = 1 := by
  induction fs with
  | nil => intro q _ hf; exact absurd hf (List.not_mem_nil f)
  | cons a fs ih =>
    intro q hq hf
    rw [List.foldl_cons]
    by_cases ha : a ∈ q
    · rw [if_pos ha]
      have hfa : f ≠ a := fun h => hq (h ▸ ha)
      exact ih q hq (List.mem_of_ne_of_mem hfa hf)
    · rw [if_neg ha]
      by_cases hfa : f = a
      · subst hfa
        rw [schedFold_count_mem fs f (f :: q) (List.mem_cons_self f q)]
        rw [List.count_cons]
        simp [List.count_eq_zero.mpr hq]
      · have : f ∉ a :: q := fun h =>
          (List.mem_cons.mp h).elim hfa (fun h' => hq h')
        exact ih (a :: q) this (List.mem_of_ne_of_mem hfa hf)

lemma schedFold_count_absent (fs : List Nat) (f : Nat) (hfs : f ∉ fs) :
    ∀ q : List Nat,
      (fs.foldl (fun q f => if f ∈ q then q else f :: q) q).count f =
        q.count f := by
  induction fs with
  | nil => intro q; rfl
  | cons a fs ih =>
    intro q
    have hfa : a ≠ f := fun h => hfs (h ▸ List.mem_cons_self a fs)
    have hfs' : f ∉ fs := fun h => hfs (List.mem_cons_of_mem a h)
    rw [List.foldl_cons]
    by_cases ha : a ∈ q
    · rw [if_pos ha]; exact ih hfs' q
    · rw [if_neg ha]
      rw [ih hfs' (a :: q), List.count_cons]
      simp [hfa]


lemma addEvent_count_mem (cfg : SimCfg) (q : List Nat) (n f : Nat)
    (h : f ∈ q) : (addEvent cfg q n).count f = q.count f :=
  schedFold_count_mem (cfg.sens n) f q h

lemma addEvent_count_new (cfg : SimCfg) (q : List Nat) (n f : Nat)
    (h1 : f ∉ q) (h2 : f ∈ cfg.sens n) : (addEvent cfg q n).count f = 1 :=
  schedFold_count_new (cfg.sens n) f q h1 h2

lemma addEvent_count_absent (cfg : SimCfg) (q : List Nat) (n f : Nat)
    (h : f ∉ cfg.sens n) : (addEvent cfg q n).count f = q.count f :=
  schedFold_count_absent (cfg.sens n) f h q

lemma runWrites_count (cfg : SimCfg) (ws : List (Nat × Nat)) (f : Nat)
    (hf : ∀ w ∈ ws, f ∉ cfg.sens w.1) :
    ∀ s : SimState,
      (runWrites cfg s ws).eventQueue.count f = s.eventQueue.count f := by
  induction ws with
  | nil => intro s; rfl
  | cons w ws ih =>
    intro s
    rw [runWrites, List.foldl_cons, ← runWrites]
    rw [ih (fun w hw => hf w (List.mem_cons_of_mem _ hw))]
    exact addEvent_count_absent cfg _ w.1 f (hf w (List.mem_cons_self _ _))

lemma evalComb_count (cfg : SimCfg) (fuel : Nat) (f : Nat)
    (hf : ∀ g ns w, w ∈ cfg.cprog g ns → f ∉ cfg.sens w.1) :
    ∀ s : SimState,
      (evalComb cfg fuel s).2.count f +
        (evalComb cfg fuel s).1.eventQueue.count f =
      s.eventQueue.count f := by
  induction fuel with
  | zero => intro s; simp [evalComb]
  | succ fuel ih =>
    intro s
    rw [evalComb]
    cases hq : s.eventQueue.getLast? with
    | none => simp
    | some g =>
      obtain ⟨q', hq'⟩ := List.getLast?_eq_some_iff.mp hq
      simp only [List.count_cons]
      have h1 := ih (runWrites cfg
        { s with eventQueue := s.eventQueue.dropLast } (cfg.cprog g s.nets))
      rw [runWrites_count cfg (cfg.cprog g s.nets) f
        (fun w hw => hf g _ w hw)] at h1
      simp only [hq', List.dropLast_concat, List.count_append,
        List.count_singleton] at h1 ⊢
      by_cases hgf : g = f
      · simp only [hgf, beq_self_eq_true, if_true] at h1 ⊢
        omega
      · have : (g == f) = false := beq_eq_false_iff_ne.mpr hgf
        simp only [this, if_false] at h1 ⊢
        omega


/-- Example configuration: net 0 is an input, net 1 the clock, net 2 an
output; combinational function 7 is registered on net 0 and copies the
current value of the clock net into net 2. -/
def clkProbeCfg : SimCfg :=
  { sens := fun n => if n = 0 then [7] else []
    cprog := fun f ns => if f = 7 then [(2, ns.getD 1 0)] else []
    posedgeFns := []
    pprog := fun _ _ => []
    clkNet := 1
    resetNet := 3 }

/-- Example state: three nets, all 0, idle simulator. -/
def threeNets : SimState :=
  { nets := [0, 0, 0], eventQueue := [], rnodeCallbacks := [], numCycles := 0 }

/-- Example configuration: combinational functions 1 and 2 are both
registered on net 0, in that order; neither performs any write. -/
def fanoutCfg : SimCfg :=
  { sens := fun n => if n = 0 then [1, 2] else []
    cprog := fun _ _ => []
    posedgeFns := []
    pprog := fun _ _ => []
    clkNet := 9
    resetNet := 9 }

/-- Example state: a single net, idle simulator. -/
def oneNet : SimState :=
  { nets := [0], eventQueue := [], rnodeCallbacks := [], numCycles := 0 }

/-- Example configuration: net 0 input, net 1 clock, net 2 register
output, net 3 reset; edge-triggered function 4 stages net 0's current
value onto net 2. -/
def regCfg : SimCfg :=
  { sens := fun _ => []
    cprog := fun _ _ => []
    posedgeFns := [4]
    pprog := fun f ns => if f = 4 then [(2, ns.getD 0 0)] else []
    clkNet := 1
    resetNet := 3 }

/-- Example state: four nets, all 0, idle simulator. -/
def fourNets : SimState :=
  { nets := [0, 0, 0, 0], eventQueue := [], rnodeCallbacks := [],
    numCycles := 0 }

/-- Example configuration: combinational function 5 is registered on
net 0 and performs no writes. -/
def dedupCfg : SimCfg :=
  { sens := fun n => if n = 0 then [5] else []
    cprog := fun _ _ => []
    posedgeFns := []
    pprog := fun _ _ => []
    clkNet := 9
    resetNet := 9 }

/-- C2 (amended): every `cycle()` call performs, in source order, a first
combinational settle (run BEFORE the clock is driven low — during it the
clock still holds its value from the previous cycle; see
`C2_counterexample`), the clock writes 0 then 1, every edge-triggered
function in registration order, the commits of exactly the staged
registers in reverse staging order and strictly after all edge-triggered
functions (the commit loop starts from `edgePhase` and empties the stack),
a second settle, and a cycle-counter increment of exactly 1.  The clock
net holds 1 when the commit phase starts. -/
theorem C2_amended (cfg : SimCfg) (fuel : Nat) (s : SimState)
    (hclk : cfg.clkNet < s.nets.length) :
    (cycle cfg fuel s).1.numCycles = s.numCycles + 1 ∧
    (cycle cfg fuel s).2.settle1 = (evalComb cfg fuel s).2 ∧
    (cycle cfg fuel s).2.commits =
      (edgePhase cfg fuel s).rnodeCallbacks.reverse ∧
    (edgePhase cfg fuel s).nets.getD cfg.clkNet 0 = 1 ∧
    (cycle cfg fuel s).1.rnodeCallbacks = [] := by
  refine ⟨cycle_numCycles cfg fuel s, rfl, ?_,
    edgePhase_clk_one cfg fuel s hclk, cycle_rnode_nil cfg fuel s⟩
  exact commitRegs_trace cfg _ _

/-- C2 (witness): `C2_amended` at `clkProbeCfg`/`threeNets`. -/
theorem C2_amended_witness :
    (cycle clkProbeCfg 9 threeNets).1.numCycles = threeNets.numCycles + 1 ∧
    (cycle clkProbeCfg 9 threeNets).2.settle1 =
      (evalComb clkProbeCfg 9 threeNets).2 ∧
    (cycle clkProbeCfg 9 threeNets).2.commits =
      (edgePhase clkProbeCfg 9 threeNets).rnodeCallbacks.reverse ∧
    (edgePhase clkProbeCfg 9 threeNets).nets.getD clkProbeCfg.clkNet 0 = 1 ∧
    (cycle clkProbeCfg 9 threeNets).1.rnodeCallbacks = [] :=
  C2_amended clkProbeCfg 9 threeNets (by decide)

/-- C2 (counterexample): after one `cycle()` from the initial state the
clock net holds 1.  An input change then schedules function 7, and the
FIRST settle of the next `cycle()` call runs it (`settle1 = [7]`): it
reads the clock net and copies it to net 2, and net 2 ends at 1.  Had the
first settle been performed "with the clock at 0" as the claim states,
function 7 would have written 0.  The source runs `eval_combinational()`
before `self.model.clk.value = 0`. -/
theorem C2_counterexample :
    (cycle clkProbeCfg 9 threeNets).1.nets.getD 1 0 = 1 ∧
    (cycle clkProbeCfg 9
      (writeNet clkProbeCfg (cycle clkProbeCfg 9 threeNets).1 0 1)).2.settle1
      = [7] ∧
    (cycle clkProbeCfg 9
      (writeNet clkProbeCfg (cycle clkProbeCfg 9 threeNets).1 0 1)).1.nets.getD
      2 0 = 1 := by decide

/-- C3 (amended): the event queue is a FIFO, not a LIFO: scheduling a
write pushes each registered, not-already-pending function onto the FRONT
(left end) of the queue, while `settle` repeatedly pops the BACK (right
end, `deque.pop()`) and invokes it, so within one settle pass functions
execute earliest-triggered-first: the first function invoked is the one
at the right end of the queue. -/
theorem C3_amended (cfg : SimCfg) (s : SimState) (n v fuel g : Nat)
    (q : List Nat) (hq : s.eventQueue = q ++ [g]) :
    (∃ new, (writeNet cfg s n v).eventQueue = new ++ s.eventQueue ∧
      ∀ f ∈ new, f ∈ cfg.sens n ∧ f ∉ s.eventQueue) ∧
    (evalComb cfg (fuel + 1) s).2.head? = some g := by
  constructor
  · exact schedFold_exists (cfg.sens n) s.eventQueue
  · have hlast : s.eventQueue.getLast? = some g := by
      rw [hq]
      exact List.getLast?_concat q
    rw [evalComb, hlast]
    rfl

/-- C3 (witness): `C3_amended` with function 3 pending at the right end. -/
theorem C3_amended_witness :
    (∃ new,
      (writeNet fanoutCfg { oneNet with eventQueue := [3] } 0 5).eventQueue =
        new ++ ({ oneNet with eventQueue := [3] } : SimState).eventQueue ∧
      ∀ f ∈ new, f ∈ fanoutCfg.sens 0 ∧
        f ∉ ({ oneNet with eventQueue := [3] } : SimState).eventQueue) ∧
    (evalComb fanoutCfg (4 + 1)
      { oneNet with eventQueue := [3] }).2.head? = some 3 :=
  C3_amended fanoutCfg { oneNet with eventQueue := [3] } 0 5 4 3 [] rfl

/-- C3 (counterexample): functions 1 and 2 are registered on net 0 in
that order; a write to net 0 schedules 1 first and 2 last (2 is the
most-recently-triggered, sitting at the queue's front).  The settle pass
then invokes them in the order `[1, 2]` — earliest-triggered-first — not
the claimed most-recently-triggered-first order `[2, 1]`:
`add_event` uses `appendleft` while `eval_combinational` uses `pop()`,
which removes from the opposite end. -/
theorem C3_counterexample :
    (writeNet fanoutCfg oneNet 0 5).eventQueue = [2, 1] ∧
    (evalComb fanoutCfg 5 (writeNet fanoutCfg oneNet 0 5)).2 = [1, 2] ∧
    [1, 2] ≠ [2, 1] := by decide


/-- C5: `reset()` drives the reset net to 1, runs exactly two full cycles
(`reset` is definitionally that composition, first conjunct), and then
drives the reset net to 0.  Provided no combinational or edge-triggered
function writes the reset net and the clock is a different net, the reset
net reads 1 from the initial assertion through both cycles — in
particular in the `edgePhase` states from which the two commit loops run
(and commits themselves never write it, so every individual commit of
those two cycles observes reset = 1) — and reads 0 once `reset()`
returns; the cycle counter advances by exactly 2. -/
theorem C5_reset_two_cycles (cfg : SimCfg) (fuel : Nat) (s : SimState)
    (hcp : ∀ g ns w, w ∈ cfg.cprog g ns → w.1 ≠ cfg.resetNet)
    (hpp : ∀ g ns w, w ∈ cfg.pprog g ns → w.1 ≠ cfg.resetNet)
    (hclk : cfg.clkNet ≠ cfg.resetNet)
    (hrc : s.rnodeCallbacks = [])
    (hr : cfg.resetNet < s.nets.length) :
    reset cfg fuel s =
      writeNet cfg (cycle cfg fuel (cycle cfg fuel
        (writeNet cfg s cfg.resetNet 1)).1).1 cfg.resetNet 0 ∧
    (writeNet cfg s cfg.resetNet 1).nets.getD cfg.resetNet 0 = 1 ∧
    (edgePhase cfg fuel (writeNet cfg s cfg.resetNet 1)).nets.getD
      cfg.resetNet 0 = 1 ∧
    (cycle cfg fuel (writeNet cfg s cfg.resetNet 1)).1.nets.getD
      cfg.resetNet 0 = 1 ∧
    (edgePhase cfg fuel (cycle cfg fuel
      (writeNet cfg s cfg.resetNet 1)).1).nets.getD cfg.resetNet 0 = 1 ∧
    (cycle cfg fuel (cycle cfg fuel
      (writeNet cfg s cfg.resetNet 1)).1).1.nets.getD cfg.resetNet 0 = 1 ∧
    (reset cfg fuel s).nets.getD cfg.resetNet 0 = 0 ∧
    (reset cfg fuel s).numCycles = s.numCycles + 2 := by
  have hA : (writeNet cfg s cfg.resetNet 1).nets.getD cfg.resetNet 0 = 1 := by
    unfold writeNet
    exact getD_set_self hr
  have hArc : (writeNet cfg s cfg.resetNet 1).rnodeCallbacks = [] := by
    rw [writeNet_rnode]
    exact hrc
  have hE1 : (edgePhase cfg fuel
      (writeNet cfg s cfg.resetNet 1)).nets.getD cfg.resetNet 0 = 1 := by
    rw [edgePhase_getD_preserved cfg fuel _ _ hcp hclk]
    exact hA
  have hC1 : (cycle cfg fuel
      (writeNet cfg s cfg.resetNet 1)).1.nets.getD cfg.resetNet 0 = 1 := by
    rw [cycle_getD_preserved cfg fuel _ _ hcp hpp hclk hArc]
    exact hA
  have hC1rc := cycle_rnode_nil cfg fuel (writeNet cfg s cfg.resetNet 1)
  have hE2 : (edgePhase cfg fuel (cycle cfg fuel
      (writeNet cfg s cfg.resetNet 1)).1).nets.getD cfg.resetNet 0 = 1 := by
    rw [edgePhase_getD_preserved cfg fuel _ _ hcp hclk]
    exact hC1
  have hC2 : (cycle cfg fuel (cycle cfg fuel
      (writeNet cfg s cfg.resetNet 1)).1).1.nets.getD cfg.resetNet 0 = 1 := by
    rw [cycle_getD_preserved cfg fuel _ _ hcp hpp hclk hC1rc]
    exact hC1
  have hlen : cfg.resetNet < (cycle cfg fuel (cycle cfg fuel
      (writeNet cfg s cfg.resetNet 1)).1).1.nets.length := by
    rw [cycle_netsLength, cycle_netsLength, writeNet_netsLength]
    exact hr
  refine ⟨rfl, hA, hE1, hC1, hE2, hC2, ?_, ?_⟩
  · show (writeNet cfg _ cfg.resetNet 0).nets.getD cfg.resetNet 0 = 0
    unfold writeNet
    exact getD_set_self hlen
  · show (writeNet cfg _ cfg.resetNet 0).numCycles = s.numCycles + 2
    rw [writeNet_numCycles, cycle_numCycles, cycle_numCycles,
      writeNet_numCycles]

/-- C5 (witness): `C5_reset_two_cycles` at `regCfg`/`fourNets`: one
edge-triggered function staging net 0 into register output net 2, reset
on net 3, clock on net 1. -/
theorem C5_reset_two_cycles_witness :
    reset regCfg 3 fourNets =
      writeNet regCfg (cycle regCfg 3 (cycle regCfg 3
        (writeNet regCfg fourNets regCfg.resetNet 1)).1).1
        regCfg.resetNet 0 ∧
    (writeNet regCfg fourNets regCfg.resetNet 1).nets.getD
      regCfg.resetNet 0 = 1 ∧
    (edgePhase regCfg 3 (writeNet regCfg fourNets regCfg.resetNet 1)).nets.getD
      regCfg.resetNet 0 = 1 ∧
    (cycle regCfg 3 (writeNet regCfg fourNets regCfg.resetNet 1)).1.nets.getD
      regCfg.resetNet 0 = 1 ∧
    (edgePhase regCfg 3 (cycle regCfg 3
      (writeNet regCfg fourNets regCfg.resetNet 1)).1).nets.getD
      regCfg.resetNet 0 = 1 ∧
    (cycle regCfg 3 (cycle regCfg 3
      (writeNet regCfg fourNets regCfg.resetNet 1)).1).1.nets.getD
      regCfg.resetNet 0 = 1 ∧
    (reset regCfg 3 fourNets).nets.getD regCfg.resetNet 0 = 0 ∧
    (reset regCfg 3 fourNets).numCycles = fourNets.numCycles + 2 :=
  C5_reset_two_cycles regCfg 3 fourNets
    (fun g ns w hw => absurd hw (List.not_mem_nil w))
    (by
      intro g ns w hw
      simp only [regCfg] at hw
      split at hw
      · rw [List.mem_singleton.mp hw]
        simp [regCfg]
      · exact absurd hw (List.not_mem_nil w))
    (by decide) (by decide) (by decide)

/-- C6: scheduling the same function twice before it executes — here via
two net writes whose sensitivity lists both contain `f` — leaves exactly
one pending entry for `f` in the event queue (`add_event` skips functions
already pending).  If no write performed by any combinational function
re-triggers `f` and the settle pass drains the queue, `f` is invoked
exactly once during that pass. -/
theorem C6_schedule_dedup (cfg : SimCfg) (s : SimState)
    (n n' v v' f fuel : Nat)
    (hf1 : f ∈ cfg.sens n) (hf2 : f ∈ cfg.sens n')
    (hq : f ∉ s.eventQueue)
    (hnr : ∀ g ns w, w ∈ cfg.cprog g ns → f ∉ cfg.sens w.1)
    (hdrain : (evalComb cfg fuel
      (writeNet cfg (writeNet cfg s n v) n' v')).1.eventQueue = []) :
    (writeNet cfg (writeNet cfg s n v) n' v').eventQueue.count f = 1 ∧
    (evalComb cfg fuel
      (writeNet cfg (writeNet cfg s n v) n' v')).2.count f = 1 := by
  have h1 : (writeNet cfg s n v).eventQueue.count f = 1 :=
    addEvent_count_new cfg s.eventQueue n f hq hf1
  have hmem : f ∈ (writeNet cfg s n v).eventQueue := by
    by_contra hno
    rw [List.count_eq_zero.mpr hno] at h1
    exact absurd h1 (by decide)
  have h2 : (writeNet cfg (writeNet cfg s n v) n' v').eventQueue.count f
      = 1 := by
    show (addEvent cfg (writeNet cfg s n v).eventQueue n').count f = 1
    rw [addEvent_count_mem cfg _ n' f hmem]
    exact h1
  refine ⟨h2, ?_⟩
  have h3 := evalComb_count cfg fuel f hnr
    (writeNet cfg (writeNet cfg s n v) n' v')
  rw [hdrain] at h3
  simp only [List.count_nil, Nat.add_zero] at h3
  rw [h2] at h3
  exact h3

/-- C6 (witness): function 5, registered on net 0, scheduled by two
writes to net 0 and invoked once by the settle pass. -/
theorem C6_schedule_dedup_witness :
    (writeNet dedupCfg (writeNet dedupCfg oneNet 0 1) 0 2).eventQueue.count 5
      = 1 ∧
    (evalComb dedupCfg 3
      (writeNet dedupCfg (writeNet dedupCfg oneNet 0 1) 0 2)).2.count 5 = 1 :=
  C6_schedule_dedup dedupCfg oneNet 0 0 1 2 5 3 (by decide) (by decide)
    (by decide) (fun g ns w hw => absurd hw (List.not_mem_nil w)) (by decide)


/-! ## Part 3: elaboration (`VerilogModule.elaborate` / `check_type`)

A module's `__dict__` is modelled as an association list from attribute
names to members.  A member is a port (of some width), a submodule
(given by its own attribute dict), a Python list of members, or any
other object (strings, `None`, ints, ...), which `check_type`
ignores. -/

/-- A member of a module's attribute dict. -/
inductive Member where
  | port (width : Nat)
  | submodule (attrs : List (String × Member))
  | mlist (items : List Member)
  | other

/-- The structure built by `elaborate`: the module's instance name, its
`ports` list (assigned name and width, in classification order) and its
`submodules` list.  (`wires` is omitted: `check_type` has no
`VerilogWire` branch, so `target.wires` always remains `[]`.) -/
inductive Hierarchy where
  | mk (name : String) (ports : List (String × Nat))
      (submodules : List Hierarchy)

/-- The `ports` list of an elaborated module. -/
def Hierarchy.ports : Hierarchy → List (String × Nat)
  | .mk _ ps _ => ps

/-- The `submodules` list of an elaborated module. -/
def Hierarchy.submodules : Hierarchy → List Hierarchy
  | .mk _ _ subs => subs

/-- `obj.name = name; obj.parent = target; target.ports += [obj]`. -/
def Hierarchy.addPort : Hierarchy → String → Nat → Hierarchy
  | .mk nm ps subs, n, w => .mk nm (ps ++ [(n, w)]) subs

/-- `obj.elaborate(name); obj.parent = target; target.submodules += [obj]`. -/
def Hierarchy.addSub : Hierarchy → Hierarchy → Hierarchy
  | .mk nm ps subs, h => .mk nm ps (subs ++ [h])

mutual

/-- The elaboration loop: `for name, obj in target.__dict__.items(): if
(name is not 'ports' and name is not 'submodules'):
self.check_type(target, name, obj)`. -/
def checkAll (t : Hierarchy) : List (String × Member) → Hierarchy
  | [] => t
  | (name, obj) :: rest =>
    checkAll
      (if name = "ports" ∨ name = "submodules" then t
       else checkType t name obj) rest

/-- `VerilogModule.check_type`: a port is named and appended to `ports`;
a submodule is recursively elaborated under the attribute name and
appended to `submodules`; a list is expanded with synthesized indexed
names (`"%s_%d" % (name, i)`); anything else is ignored. -/
def checkType (t : Hierarchy) (name : String) (obj : Member) : Hierarchy :=
  match obj with
  | .port w => t.addPort name w
  | .submodule sub =>
      t.addSub (checkAll (Hierarchy.mk name [] []) sub)
  | .mlist items => checkList t name 0 items
  | .other => t

/-- The list branch of `check_type`: `for i, item in enumerate(obj):
self.check_type(target, "%s_%d" % (name, i), item)`. -/
def checkList (t : Hierarchy) (name : String) (i : Nat) :
    List Member → Hierarchy
  | [] => t
  | item :: rest =>
    checkList (checkType t (name ++ "_" ++ toString i) item) name (i + 1)
      rest

end

/-- `VerilogModule.elaborate(iname)`: set `class_name`, `parent`, `name`,
and the empty `wires`/`ports`/`submodules` lists, then classify every
member of `__dict__` except the keys `'ports'` and `'submodules'`. -/
def elabModule (attrs : List (String × Member)) (iname : String) :
    Hierarchy :=
  checkAll (Hierarchy.mk iname [] []) attrs

/-- The attribute dict after `elaborate` has run once: the user-declared
members plus the attributes `elaborate` itself assigned.  At the start of
a SECOND `elaborate` call, `wires`, `ports` and `submodules` have just
been reset to `[]` again, `class_name`/`name` hold strings and `parent`
holds `None` — all of which `check_type` ignores (`ports` and
`submodules` are moreover excluded by name in the loop).  The
unspecified-but-deterministic dict iteration order of Python 2 is
modelled as insertion order. -/
def elabDict (attrs : List (String × Member)) : List (String × Member) :=
  attrs ++
    [("class_name", .other), ("parent", .other), ("name", .other),
     ("wires", .mlist []), ("ports", .other), ("submodules", .other)]


lemma checkAll_append (a b : List (String × Member)) :
    ∀ t : Hierarchy, checkAll t (a ++ b) = checkAll (checkAll t a) b := by
  induction a with
  | nil => intro t; rfl
  | cons p rest ih =>
    intro t
    rw [List.cons_append, checkAll, checkAll]
    exact ih _

/-- C9 (amended): re-invoking `elaborate` on an already-elaborated module
raises nothing — the source contains no double-elaboration check; the
call resets the `wires`/`ports`/`submodules` lists and re-classifies the
attribute dict (which now additionally holds `class_name`, `parent`,
`name` and the freshly reset lists, all of which the loop ignores or
skips), rebuilding exactly the hierarchy of the first call. -/
theorem C9_amended (attrs : List (String × Member)) (iname : String)
    (hres : ∀ p ∈ attrs, p.1 ≠ "class_name" ∧ p.1 ≠ "parent" ∧
      p.1 ≠ "name" ∧ p.1 ≠ "wires" ∧ p.1 ≠ "ports" ∧
      p.1 ≠ "submodules") :
    elabModule (elabDict attrs) iname = elabModule attrs iname := by
  unfold elabModule elabDict
  rw [checkAll_append]
  rfl

/-- C9 (witness): a module with one port and one submodule, elaborated
twice. -/
theorem C9_amended_witness :
    elabModule (elabDict [("in_", Member.port 8),
      ("sub", Member.submodule [("o", Member.port 1)])]) "toplevel" =
    elabModule [("in_", Member.port 8),
      ("sub", Member.submodule [("o", Member.port 1)])] "toplevel" :=
  C9_amended [("in_", Member.port 8),
    ("sub", Member.submodule [("o", Member.port 1)])] "toplevel"
    (by decide)

/-- C9 (counterexample): the claim says a second `elaborate` call "raises
a fatal error at elaboration time instead of rebuilding the hierarchy".
In the source `elaborate` is total — it has no already-elaborated check
and no raise — and on this concrete one-port module the second
invocation runs to completion and rebuilds the very same hierarchy. -/
theorem C9_counterexample :
    elabModule [("in_", Member.port 8)] "toplevel" =
      Hierarchy.mk "toplevel" [("in_", 8)] [] ∧
    elabModule (elabDict [("in_", Member.port 8)]) "toplevel" =
      Hierarchy.mk "toplevel" [("in_", 8)] [] :=
  ⟨rfl, rfl⟩

end PyMTL
